import Mathlib

/-!
A verification development for the cost-tracker dashboard
(`streamlit_app.py`).  The core data path is shallowly embedded:

* `PyVal` models a parsed JSON value as produced by `json.load`
  (Python objects: dict / list / str / int / float / bool / None).
* `process_data` embeds the Python function `process_data`, including the
  exact control flow of its `try/except` blocks.  The three exception
  handlers interpolate the local variable `record` into their messages;
  when `record` has never been assigned (the failure happened while
  evaluating `data[user_email][0]` on the first iteration) Python raises
  `UnboundLocalError` from inside the handler, which escapes the
  function.  The embedding threads the optional current binding of
  `record` through the loop to capture this faithfully.
* `topModelsByTokens`, `topModelsByCost`, `userTotals` and `summarize`
  embed the aggregation part of `plot_data`: pandas `groupby` with its
  default `sort=True` (group keys in ascending order), `sort_values`
  descending (modelled as a stable insertion sort), `head(10)`, and the
  synthetic `Total` row.
-/

/-- A Python value as produced by `json.load`. -/
inductive PyVal where
  | none : PyVal
  | bool (b : Bool) : PyVal
  | int (n : ℤ) : PyVal
  | float (q : ℚ) : PyVal
  | str (s : String) : PyVal
  | list (xs : List PyVal) : PyVal
  | dict (kvs : List (String × PyVal)) : PyVal

/-- A Python exception kind, as far as `process_data` can observe one.
`unboundLocalError` is what CPython raises when a handler reads the
local `record` before any assignment to it has executed. -/
inductive PyErr where
  | keyError (k : PyVal) : PyErr
  | valueError : PyErr
  | typeError : PyErr
  | indexError : PyErr
  | unboundLocalError : PyErr

/-- Lookup in a Python dict with string keys (JSON object keys are
strings; `json.load` keeps one value per key, so the association lists
we quantify over carry `Nodup` keys where it matters). -/
def dictGet : List (String × PyVal) → String → Option PyVal
  | [], _ => Option.none
  | kv :: rest, k => if kv.1 = k then some kv.2 else dictGet rest k

/-- Element at a non-negative position, if any. -/
def listNth {α : Type} : List α → ℕ → Option α
  | [], _ => Option.none
  | x :: _, 0 => some x
  | _ :: xs, n + 1 => listNth xs n

/-- Python list indexing `xs[i]`: negative indices count from the end,
out-of-range raises `IndexError`. -/
def listIndex (xs : List PyVal) (i : ℤ) : Except PyErr PyVal :=
  let j : ℤ := if i < 0 then i + xs.length else i
  if j < 0 then .error .indexError
  else
    match listNth xs j.toNat with
    | some v => .ok v
    | Option.none => .error .indexError

/-- Python string indexing `s[i]` (yields a one-character string). -/
def strIndex (s : String) (i : ℤ) : Except PyErr PyVal :=
  let cs := s.toList
  let j : ℤ := if i < 0 then i + cs.length else i
  if j < 0 then .error .indexError
  else
    match listNth cs j.toNat with
    | some c => .ok (.str c.toString)
    | Option.none => .error .indexError

/-- Python subscript `a[b]`.  A dict with string keys raises `KeyError`
for any hashable absent key and `TypeError` for unhashable ones; a list
accepts ints (and bools, which are ints in Python); anything else is not
subscriptable. -/
def pySubscript : PyVal → PyVal → Except PyErr PyVal
  | .dict kvs, .str s =>
    match dictGet kvs s with
    | some v => .ok v
    | Option.none => .error (.keyError (.str s))
  | .dict _, .int n => .error (.keyError (.int n))
  | .dict _, .float q => .error (.keyError (.float q))
  | .dict _, .bool b => .error (.keyError (.bool b))
  | .dict _, .none => .error (.keyError .none)
  | .dict _, .list _ => .error .typeError
  | .dict _, .dict _ => .error .typeError
  | .list xs, .int i => listIndex xs i
  | .list xs, .bool b => listIndex xs (if b then 1 else 0)
  | .list _, _ => .error .typeError
  | .str s, .int i => strIndex s i
  | .str _, _ => .error .typeError
  | _, _ => .error .typeError

/-- One step of reading decimal digits. -/
def readDigits : List Char → ℕ → ℕ → ℕ × ℕ × List Char
  | [], v, n => (v, n, [])
  | c :: cs, v, n =>
    if c.isDigit then readDigits cs (10 * v + (c.toNat - 48)) (n + 1)
    else (v, n, c :: cs)

/-- An optional leading sign; returns the sign as `1` or `-1`. -/
def readSign : List Char → ℤ × List Char
  | '+' :: cs => (1, cs)
  | '-' :: cs => (-1, cs)
  | cs => (1, cs)

/-- The float conversion Python applies in `float(cost)` for decimal
literals: optional surrounding whitespace, optional sign, digits with an
optional fractional part and an optional exponent.  (Python also accepts
`inf`, `nan` and digit-separating underscores; no claim exercises those,
and the dashboard's cost strings are plain decimals.) -/
def parseFloat (s : String) : Option ℚ :=
  let cs := s.toList.dropWhile Char.isWhitespace
  let (sign, cs) := readSign cs
  let (ip, ni, cs) := readDigits cs 0 0
  let (fp, nf, cs) :=
    match cs with
    | '.' :: rest => readDigits rest 0 0
    | _ => (0, 0, cs)
  if ni + nf = 0 then Option.none
  else
    match cs with
    | [] => some ((sign * (ip * 10 ^ nf + fp) : ℚ) / (10 : ℚ) ^ nf)
    | 'e' :: rest =>
      let (es, rest) := readSign rest
      let (ev, ne, rest) := readDigits rest 0 0
      if ne = 0 ∨ ¬ (rest.dropWhile Char.isWhitespace).isEmpty then Option.none
      else some ((sign * (ip * 10 ^ nf + fp) : ℚ) / (10 : ℚ) ^ nf * (10 : ℚ) ^ (es * ev))
    | 'E' :: rest =>
      let (es, rest) := readSign rest
      let (ev, ne, rest) := readDigits rest 0 0
      if ne = 0 ∨ ¬ (rest.dropWhile Char.isWhitespace).isEmpty then Option.none
      else some ((sign * (ip * 10 ^ nf + fp) : ℚ) / (10 : ℚ) ^ nf * (10 : ℚ) ^ (es * ev))
    | rest =>
      if (rest.dropWhile Char.isWhitespace).isEmpty then
        some ((sign * (ip * 10 ^ nf + fp) : ℚ) / (10 : ℚ) ^ nf)
      else Option.none

/-- Lines 60-62 of the source: `if isinstance(cost, str): cost = float(cost)`.
Only strings are coerced; every other value passes through unchanged.
A string that does not parse raises `ValueError`. -/
def pyFloat : PyVal → Except PyErr PyVal
  | .str s =>
    match parseFloat s with
    | some q => .ok (.float q)
    | Option.none => .error .valueError
  | v => .ok v

/-- Python `+` on the values that can appear in a parsed JSON document.
Bools are ints; `int + float` promotes; strings and lists concatenate;
every other combination raises `TypeError`. -/
def pyAdd : PyVal → PyVal → Except PyErr PyVal
  | .int a, .int b => .ok (.int (a + b))
  | .int a, .float q => .ok (.float (a + q))
  | .float q, .int b => .ok (.float (q + b))
  | .float p, .float q => .ok (.float (p + q))
  | .bool x, .int b => .ok (.int ((if x then 1 else 0) + b))
  | .int a, .bool y => .ok (.int (a + (if y then 1 else 0)))
  | .bool x, .bool y => .ok (.int ((if x then 1 else 0) + (if y then 1 else 0)))
  | .bool x, .float q => .ok (.float ((if x then 1 else 0) + q))
  | .float q, .bool y => .ok (.float (q + (if y then 1 else 0)))
  | .str a, .str b => .ok (.str (a ++ b))
  | .list a, .list b => .ok (.list (a ++ b))
  | _, _ => .error .typeError

/-- The dict appended to `processed_data` (lines 66-73).  The code never
type-checks these values, so each field is an arbitrary `PyVal`. -/
structure NormRec where
  model : PyVal
  total_cost : PyVal
  user : PyVal
  total_tokens : PyVal

/-- One reported per-record error (an `st.error` call inside a handler):
`missingKey` is the `except KeyError` branch (line 74), `invalidValue`
the `except ValueError` branch (line 77), `unexpected` the
`except Exception` branch (line 80). -/
inductive RecordError where
  | missingKey (key : PyVal) (record : PyVal) : RecordError
  | invalidValue (record : PyVal) : RecordError
  | unexpected (record : PyVal) (err : PyErr) : RecordError

/-- Dispatch of a raised exception to the three handlers, when the local
`record` is bound.  Python tries `except KeyError`, then
`except ValueError`, then `except Exception`, in that order. -/
def boundHandler (e : PyErr) (record : PyVal) : RecordError :=
  match e with
  | .keyError k => .missingKey k record
  | .valueError => .invalidValue record
  | e => .unexpected record e

/-- Dispatch of a raised exception when `record` may be unbound: every
handler's message interpolates `record`, so an unbound `record` raises
`UnboundLocalError` from inside the handler, escaping `process_data`. -/
def handleErr (e : PyErr) (bound : Option PyVal) : Except PyErr RecordError :=
  match bound with
  | Option.none => .error .unboundLocalError
  | some r => .ok (boundHandler e r)

/-- Lines 57-73 of the source, run once `record` is bound: read `model`
and `total_cost`, coerce a string cost, read and add the token counts,
and either build the appended dict or hand the raised exception to the
matching handler (which always succeeds here, `record` being bound). -/
def stepEntry (user : PyVal) (record : PyVal) : NormRec ⊕ RecordError :=
  match pySubscript record (.str "model") with
  | .error e => .inr (boundHandler e record)
  | .ok m =>
    match pySubscript record (.str "total_cost") with
    | .error e => .inr (boundHandler e record)
    | .ok c =>
      match pyFloat c with
      | .error e => .inr (boundHandler e record)
      | .ok cost =>
        match pySubscript record (.str "input_tokens") with
        | .error e => .inr (boundHandler e record)
        | .ok it =>
          match pySubscript record (.str "output_tokens") with
          | .error e => .inr (boundHandler e record)
          | .ok ot =>
            match pyAdd it ot with
            | .error e => .inr (boundHandler e record)
            | .ok tt => .inl ⟨m, cost, user, tt⟩

/-- One iteration of the `for user_data in data` loop: evaluate
`data[user_email][0]`; a failure there reaches a handler with `record`
still carrying its previous binding (possibly none).  On success the
binding is updated and the rest of the body runs as `stepEntry`. -/
def processUser (data u : PyVal) (bound : Option PyVal) :
    Except PyErr (Option PyVal × (NormRec ⊕ RecordError)) :=
  match pySubscript data u with
  | .error e => (handleErr e bound).map (fun er => (bound, .inr er))
  | .ok v =>
    match pySubscript v (.int 0) with
    | .error e => (handleErr e bound).map (fun er => (bound, .inr er))
    | .ok r => .ok (some r, stepEntry u r)

/-- The loop of `process_data`, accumulating appended records and
reported errors, threading the binding of the local `record`.  An
escaping exception (the `UnboundLocalError` case) aborts the whole
batch. -/
def processLoop (data : PyVal) :
    List PyVal → Option PyVal → Except PyErr (List NormRec × List RecordError)
  | [], _ => .ok ([], [])
  | u :: us, bound =>
    match processUser data u bound with
    | .error e => .error e
    | .ok (b2, .inl r) => (processLoop data us b2).map (fun p => (r :: p.1, p.2))
    | .ok (b2, .inr er) => (processLoop data us b2).map (fun p => (p.1, er :: p.2))

/-- Python iteration `for user_data in data`: a dict yields its keys, a
list its elements, a string its characters; numbers and None are not
iterable (`TypeError`), raised outside the `try`, so it escapes. -/
def pyIter : PyVal → Except PyErr (List PyVal)
  | .dict kvs => .ok (kvs.map (fun kv => PyVal.str kv.1))
  | .list xs => .ok xs
  | .str s => .ok (s.toList.map (fun c => PyVal.str c.toString))
  | _ => .error .typeError

/-- The embedding of `process_data` (lines 42-89).  `.ok (records, errors)`
is a normal return carrying the appended records and the reported
per-record errors (the empty-record case of lines 84-87 returns the same
empty record set); `.error e` is an exception escaping the function. -/
def process_data (data : PyVal) : Except PyErr (List NormRec × List RecordError) :=
  match pyIter data with
  | .error e => .error e
  | .ok items => processLoop data items Option.none

/-- A typed view of one row of the processed DataFrame, for rows whose
fields have the expected types (string model and user, numeric cost,
integer token total) — the shape every aggregation claim is about. -/
structure Record where
  model : String
  total_cost : ℚ
  user : String
  total_tokens : ℤ
deriving DecidableEq

/-- Reading a `process_data` output dict as a typed row. -/
def toRecord : NormRec → Option Record
  | ⟨.str m, .float q, .str u, .int t⟩ => some ⟨m, q, u, t⟩
  | ⟨.str m, .int n, .str u, .int t⟩ => some ⟨m, (n : ℚ), u, t⟩
  | _ => Option.none

/-- One row of the user-totals table (lines 137-158). -/
structure UserRow where
  user : String
  total_cost : ℚ
  total_tokens : ℤ
deriving DecidableEq

/-- The comparison `sort_values(by=..., ascending=False)` sorts by: the
summed value, larger first.  The sort itself is modelled as a stable
insertion sort (ties keep their pre-sort order). -/
def descBy {α β : Type} [LinearOrder β] (val : α → β) : α → α → Prop :=
  fun a b => val b ≤ val a

instance {α β : Type} [LinearOrder β] (val : α → β) : DecidableRel (descBy val) :=
  fun a b => inferInstanceAs (Decidable (val b ≤ val a))

instance {α β : Type} [LinearOrder β] (val : α → β) : IsTotal α (descBy val) :=
  ⟨fun a b => le_total (val b) (val a)⟩

instance {α β : Type} [LinearOrder β] (val : α → β) : IsTrans α (descBy val) :=
  ⟨fun _ _ _ h1 h2 => le_trans h2 h1⟩

/-- pandas `groupby(key)` with its default `sort=True`: the distinct
keys, in ascending order. -/
def groupKeys (keys : List String) : List String :=
  List.insertionSort (· ≤ ·) keys.dedup

/-- `data.groupby("model")[col].sum().reset_index()` followed by
`sort_values(by=col, ascending=False)` (lines 102-107 and 119-124,
before the `head(10)` truncation). -/
def modelGroups {β : Type} [AddCommMonoid β] [LinearOrder β]
    (val : Record → β) (rs : List Record) : List (String × β) :=
  List.insertionSort (descBy Prod.snd)
    ((groupKeys (rs.map Record.model)).map fun m =>
      (m, ((rs.filter (fun r => r.model = m)).map val).sum))

/-- The `.head(10)` truncation of a sorted model aggregate. -/
def topModels {β : Type} [AddCommMonoid β] [LinearOrder β]
    (val : Record → β) (rs : List Record) : List (String × β) :=
  (modelGroups val rs).take 10

/-- Lines 102-107: top models by summed `total_tokens`. -/
def topModelsByTokens (rs : List Record) : List (String × ℤ) :=
  topModels Record.total_tokens rs

/-- Lines 119-124: top models by summed `total_cost`. -/
def topModelsByCost (rs : List Record) : List (String × ℚ) :=
  topModels Record.total_cost rs

/-- Lines 137-142: group by `user`, sum both columns, sort descending
by summed `total_cost` (not truncated). -/
def userRows (rs : List Record) : List UserRow :=
  List.insertionSort (descBy UserRow.total_cost)
    ((groupKeys (rs.map Record.user)).map fun u =>
      ⟨u, ((rs.filter (fun r => r.user = u)).map Record.total_cost).sum,
          ((rs.filter (fun r => r.user = u)).map Record.total_tokens).sum⟩)

/-- Lines 144-158: the user table with the synthetic `Total` row
appended; its sums are computed from the grouped table (lines 145-146). -/
def userTotals (rs : List Record) : List UserRow :=
  userRows rs ++
    [⟨"Total", ((userRows rs).map UserRow.total_cost).sum,
               ((userRows rs).map UserRow.total_tokens).sum⟩]

/-- The three aggregate tables `plot_data` derives from the record set. -/
def summarize (rs : List Record) :
    List (String × ℤ) × List (String × ℚ) × List UserRow :=
  (topModelsByTokens rs, topModelsByCost rs, userTotals rs)

/-- Is this reported error the `except ValueError` branch (the spec's
`InvalidNumeric`)? -/
def RecordError.isInvalidNumeric : RecordError → Bool
  | .invalidValue _ => true
  | _ => false

/-- Is this reported error the `except Exception` branch (the spec's
`Unexpected`)? -/
def RecordError.isUnexpected : RecordError → Bool
  | .unexpected _ _ => true
  | _ => false

/-- The first entry of a user's sequence, when the document value is a
non-empty list whose head is a dict — the shape `record = data[k][0]`
reads successfully into a usage entry. -/
def asEntry? : PyVal → Option (List (String × PyVal))
  | .list (.dict e :: _) => some e
  | _ => Option.none

/-- A Python int, as an integer. -/
def asInt? : PyVal → Option ℤ
  | .int n => some n
  | _ => Option.none

/-- The cost values the spec calls valid: a number, or a string that
parses as one — together with the value the code ends up storing
(strings are replaced by the parsed float, numbers pass through). -/
def coerceNum? : PyVal → Option PyVal
  | .str s => (parseFloat s).map PyVal.float
  | .int n => some (.int n)
  | .float q => some (.float q)
  | _ => Option.none

/-- Is the value neither a string nor a number?  (`isinstance(cost, str)`
is false and the value is not an int or float — the pass-through cases
of claim C10.) -/
def notStrNum : PyVal → Bool
  | .str _ => false
  | .int _ => false
  | .float _ => false
  | _ => true

/-- The record `process_data` appends for a well-formed user (all four
fields present, numeric-or-parseable cost, integer token counts), with
`user` the document key and `total_tokens` the exact sum. -/
def goodRec? (k : String) (v : PyVal) : Option NormRec :=
  (asEntry? v).bind fun e =>
  (dictGet e "model").bind fun m =>
  (dictGet e "total_cost").bind fun c =>
  (coerceNum? c).bind fun c2 =>
  (dictGet e "input_tokens").bind fun itv =>
  (asInt? itv).bind fun a =>
  (dictGet e "output_tokens").bind fun otv =>
  (asInt? otv).bind fun b =>
  some ⟨m, c2, .str k, .int (a + b)⟩

/-- The error `process_data` reports for a user whose first entry is a
dict missing one of the four required fields, or whose `total_cost` is a
non-parseable string — following the evaluation order of the source
(`model`, then `total_cost`, then `float(cost)`, then the two token
lookups), which determines which failure is raised first. -/
def badErr? ( _k : String) (v : PyVal) : Option RecordError :=
  match asEntry? v with
  | some e =>
    match dictGet e "model" with
    | Option.none => some (.missingKey (.str "model") (.dict e))
    | some _ =>
      match dictGet e "total_cost" with
      | Option.none => some (.missingKey (.str "total_cost") (.dict e))
      | some c =>
        match pyFloat c with
        | .error _ => some (.invalidValue (.dict e))
        | .ok _ =>
          match dictGet e "input_tokens" with
          | Option.none => some (.missingKey (.str "input_tokens") (.dict e))
          | some _ =>
            match dictGet e "output_tokens" with
            | Option.none => some (.missingKey (.str "output_tokens") (.dict e))
            | some _ => Option.none
  | Option.none => Option.none

/-- The error `process_data` reports for a user whose entry has all four
fields and an acceptable cost but whose token addition raises: the
exception is a `TypeError`, which only the generic `except Exception`
handler matches. -/
def addErr? ( _k : String) (v : PyVal) : Option RecordError :=
  (asEntry? v).bind fun e =>
  (dictGet e "model").bind fun _ =>
  (dictGet e "total_cost").bind fun c =>
  ((pyFloat c).toOption).bind fun _ =>
  (dictGet e "input_tokens").bind fun itv =>
  (dictGet e "output_tokens").bind fun otv =>
  match pyAdd itv otv with
  | .error err => some (.unexpected (.dict e) err)
  | .ok _ => Option.none

/-- The record `process_data` appends for a user whose `total_cost` is
present but neither a string nor a number: the coercion is skipped and
the value is stored unchanged. -/
def oddRec? (k : String) (v : PyVal) : Option NormRec :=
  (asEntry? v).bind fun e =>
  (dictGet e "model").bind fun m =>
  (dictGet e "total_cost").bind fun c =>
  (if notStrNum c then some () else Option.none).bind fun _ =>
  (dictGet e "input_tokens").bind fun itv =>
  (dictGet e "output_tokens").bind fun otv =>
  ((pyAdd itv otv).toOption).bind fun tt =>
  some ⟨m, c, .str k, tt⟩

/-- The outcome of one loop iteration for key `k` of the document, when
the document value for `k` is a non-empty list (so `record` gets bound
and the iteration cannot escape).  The fallback arm is never reached
under that hypothesis. -/
def entryOutcome (kvs : List (String × PyVal)) (k : String) : NormRec ⊕ RecordError :=
  match dictGet kvs k with
  | some (.list (r :: _)) => stepEntry (.str k) r
  | _ => .inr (.invalidValue .none)

/-- The document of claim C1's failing input: one user whose entry list
is empty, so `data[user_email][0]` raises `IndexError` on the first
iteration, before `record` was ever assigned. -/
def docEmptyList : PyVal := .dict [("u", .list [])]

/-- The document of claim C4's failing input: the JSON array `[0]`.
`json.load` parses it fine; iterating it yields `0`, `data[0]` is `0`
again, and `0[0]` raises `TypeError` with `record` still unbound. -/
def docArray : PyVal := .list [.int 0]

/-- The usage entry of claim C5's counterexample: all four fields
present, numeric cost, but `input_tokens` is the string `"10"` while
`output_tokens` is the int `5`, so `"10" + 5` raises `TypeError`. -/
def entryMixedTokens : List (String × PyVal) :=
  [("model", .str "m"), ("total_cost", .float 1),
   ("input_tokens", .str "10"), ("output_tokens", .int 5)]

/-- The one-user document around `entryMixedTokens`. -/
def docMixedTokens : PyVal := .dict [("u", .list [.dict entryMixedTokens])]

/-- An entry whose two token fields are both strings: `"10" + "20"`
concatenates, so the code appends a record with `total_tokens = "1020"`
and reports nothing. -/
def entryStrTokens : List (String × PyVal) :=
  [("model", .str "m"), ("total_cost", .float 1),
   ("input_tokens", .str "10"), ("output_tokens", .str "20")]

/-- The one-user document around `entryStrTokens`. -/
def docStrTokens : PyVal := .dict [("u", .list [.dict entryStrTokens])]

/-- The record set of claim C6's counterexample: model `"b"` is
encountered first, model `"a"` second, and both have the same token
sum, so first-encountered order is `b` before `a`. -/
def rsTieModels : List Record :=
  [⟨"b", 1, "u1", 10⟩, ⟨"a", 1, "u2", 10⟩]

/-- The end-to-end example document of claim C9, as parsed by
`json.load` (the `"1.50"` cost arrives as a string, the `2.0` as a
float). -/
def docExample : PyVal := .dict
  [("a@x.com", .list [.dict
      [("model", .str "gpt-4"), ("total_cost", .str "1.50"),
       ("input_tokens", .int 100), ("output_tokens", .int 50)]]),
   ("b@x.com", .list [.dict
      [("model", .str "gpt-4"), ("total_cost", .float 2),
       ("input_tokens", .int 10), ("output_tokens", .int 10)]])]

/-- A one-user well-formed document, used to instantiate the theorems
with hypotheses. -/
def docWellFormed : List (String × PyVal) :=
  [("u@x.com", .list [.dict
      [("model", .str "m"), ("total_cost", .float 1),
       ("input_tokens", .int 1), ("output_tokens", .int 2)]])]

/-- A two-user document with one well-formed user and one user whose
entry is missing `total_cost`, used to instantiate claim C3. -/
def docOneBad : List (String × PyVal) :=
  [("good@x.com", .list [.dict
      [("model", .str "m"), ("total_cost", .float 1),
       ("input_tokens", .int 1), ("output_tokens", .int 2)]]),
   ("bad@x.com", .list [.dict [("model", .str "m")]])]

/-- A two-user document with one well-formed user and one user whose
token addition raises, used to instantiate the amended claim C5. -/
def docOneMixed : List (String × PyVal) :=
  [("good@x.com", .list [.dict
      [("model", .str "m"), ("total_cost", .float 1),
       ("input_tokens", .int 1), ("output_tokens", .int 2)]]),
   ("bad@x.com", .list [.dict entryMixedTokens])]

/-- A one-user document whose `total_cost` is JSON `null`, used to
instantiate claim C10. -/
def docNullCost : List (String × PyVal) :=
  [("u@x.com", .list [.dict
      [("model", .str "m"), ("total_cost", PyVal.none),
       ("input_tokens", .int 1), ("output_tokens", .int 2)]])]

/-- C1: the claim says an unexpected per-record failure is always caught
inside normalize and processing continues — one bad record must never
abort the whole batch.  The code violates this: on the document
`{"u": []}` the very first iteration raises `IndexError` at
`data[user_email][0]`, the generic handler then evaluates an f-string
mentioning the never-assigned local `record`, and the resulting
`UnboundLocalError` escapes `process_data`, aborting the whole batch.
The surrounding `except`/`continue` structure shows the intent is
exactly what the claim states, so this is a bug in the code. -/
theorem C1_record_failure_escapes_batch :
    process_data docEmptyList = .error .unboundLocalError := rfl

/-- C4: the claim says malformed top-level input (e.g. a JSON array)
never produces an unhandled fault past the load/normalize boundary.  The
code violates this: `[0]` is valid JSON, so `load_data` returns it, and
`process_data` then raises `TypeError` at `data[user_email][0]` (`0[0]`),
whose handler trips over the unbound local `record` — the
`UnboundLocalError` escapes the boundary unhandled. -/
theorem C4_array_input_unhandled_escape :
    process_data docArray = .error .unboundLocalError := rfl

/-- C5 counterexample: for an entry with `input_tokens = "10"` (string)
and `output_tokens = 5` (int), the addition raises `TypeError`, which is
caught by the generic `except Exception` branch, not `except ValueError`:
the reported error is `Unexpected`, not `InvalidNumeric` as the claim
states.  The record is indeed dropped, but the claimed error kind is
wrong. -/
theorem C5_invalid_tokens_not_invalid_numeric_cx :
    process_data docMixedTokens =
      .ok ([], [.unexpected (.dict entryMixedTokens) .typeError]) ∧
    RecordError.isInvalidNumeric (.unexpected (.dict entryMixedTokens) .typeError) = false ∧
    RecordError.isUnexpected (.unexpected (.dict entryMixedTokens) .typeError) = true :=
  ⟨rfl, rfl, rfl⟩

/-- C6 counterexample: the claim says ties in the summed value preserve
the order in which the models were first encountered.  In `rsTieModels`
model `"b"` is encountered before `"a"` and both sum to 10, so the claim
predicts `[("b",10),("a",10)]`; but pandas `groupby(sort=True)` orders
the groups by key, so the code produces `[("a",10),("b",10)]`. -/
theorem C6_tie_order_cx :
    rsTieModels.map Record.model = ["b", "a"] ∧
    topModelsByTokens rsTieModels = [("a", 10), ("b", 10)] ∧
    topModelsByTokens rsTieModels ≠ [("b", 10), ("a", 10)] := by
  refine ⟨rfl, by with_unfolding_all rfl, ?_⟩
  intro h
  rw [show topModelsByTokens rsTieModels = [("a", 10), ("b", 10)] from
    by with_unfolding_all rfl] at h
  exact absurd h (by decide)

/-- C7: `summarize` on the empty record set returns empty model tables
and a user-totals table holding exactly the synthetic `Total` row with
zero cost and zero tokens. -/
theorem C7_summarize_empty :
    summarize [] = ([], [], [⟨"Total", 0, 0⟩]) := rfl

/-- C9: the end-to-end example.  On the two-user document, normalize
yields exactly the records (a@x.com, gpt-4, 1.5, 150) and
(b@x.com, gpt-4, 2.0, 20) with no errors; reading them as typed rows,
`topModelsByCost` is the single row (gpt-4, 3.5) and `userTotals` lists
b@x.com before a@x.com (2.0 > 1.5) followed by the Total row with cost
3.5 and 170 tokens. -/
theorem C9_end_to_end_example :
    process_data docExample =
      .ok ([⟨.str "gpt-4", .float (3/2), .str "a@x.com", .int 150⟩,
            ⟨.str "gpt-4", .float 2, .str "b@x.com", .int 20⟩], []) ∧
    toRecord ⟨.str "gpt-4", .float (3/2), .str "a@x.com", .int 150⟩ =
      some ⟨"gpt-4", 3/2, "a@x.com", 150⟩ ∧
    toRecord ⟨.str "gpt-4", .float 2, .str "b@x.com", .int 20⟩ =
      some ⟨"gpt-4", 2, "b@x.com", 20⟩ ∧
    topModelsByCost [⟨"gpt-4", 3/2, "a@x.com", 150⟩, ⟨"gpt-4", 2, "b@x.com", 20⟩] =
      [("gpt-4", 7/2)] ∧
    userTotals [⟨"gpt-4", 3/2, "a@x.com", 150⟩, ⟨"gpt-4", 2, "b@x.com", 20⟩] =
      [⟨"b@x.com", 2, 20⟩, ⟨"a@x.com", 3/2, 150⟩, ⟨"Total", 7/2, 170⟩] := by
  refine ⟨by with_unfolding_all rfl, rfl, rfl, ?_, ?_⟩
  · with_unfolding_all rfl
  · with_unfolding_all rfl

theorem dictGet_eq_of_nodup {kvs : List (String × PyVal)}
    (hnd : (kvs.map Prod.fst).Nodup) {kv : String × PyVal} (hm : kv ∈ kvs) :
    dictGet kvs kv.1 = some kv.2 := by
  induction kvs with
  | nil => cases hm
  | cons hd tl ih =>
    rw [List.map_cons, List.nodup_cons] at hnd
    rcases List.mem_cons.mp hm with rfl | hm
    · simp [dictGet]
    · have hne : hd.1 ≠ kv.1 := fun he => hnd.1 (he ▸ List.mem_map_of_mem Prod.fst hm)
      simp [dictGet, hne, ih hnd.2 hm]

theorem pySubscript_dict {kvs : List (String × PyVal)} {k : String} {v : PyVal}
    (h : dictGet kvs k = some v) :
    pySubscript (.dict kvs) (.str k) = .ok v := by
  simp [pySubscript, h]

theorem pySubscript_list_zero (x : PyVal) (xs : List PyVal) :
    pySubscript (.list (x :: xs)) (.int 0) = .ok x := rfl

theorem processUser_entry {kvs : List (String × PyVal)} {k : String}
    {r : PyVal} {rest : List PyVal}
    (h : dictGet kvs k = some (.list (r :: rest))) (bound : Option PyVal) :
    processUser (.dict kvs) (.str k) bound = .ok (some r, stepEntry (.str k) r) := by
  simp [processUser, pySubscript_dict h, pySubscript_list_zero]

theorem processLoop_entries {kvs : List (String × PyVal)} (ks : List String)
    (h : ∀ k ∈ ks, ∃ r rest, dictGet kvs k = some (.list (r :: rest)))
    (bound : Option PyVal) :
    processLoop (.dict kvs) (ks.map PyVal.str) bound =
      .ok (ks.filterMap (fun k => (entryOutcome kvs k).getLeft?),
           ks.filterMap (fun k => (entryOutcome kvs k).getRight?)) := by
  induction ks generalizing bound with
  | nil => rfl
  | cons k ks ih =>
    obtain ⟨r, rest, hk⟩ := h k (List.mem_cons_self k ks)
    have hout : entryOutcome kvs k = stepEntry (.str k) r := by
      simp [entryOutcome, hk]
    have ih2 := ih (fun k hm => h k (List.mem_cons_of_mem _ hm)) (some r)
    simp only [List.map_cons, processLoop, processUser_entry hk]
    rcases hs : stepEntry (.str k) r with rc | er
    · simp [ih2, List.filterMap_cons, hout, hs, Except.map]
    · simp [ih2, List.filterMap_cons, hout, hs, Except.map]

theorem process_data_entries {kvs : List (String × PyVal)}
    (hnd : (kvs.map Prod.fst).Nodup)
    (h : ∀ kv ∈ kvs, ∃ r rest, kv.2 = .list (r :: rest)) :
    process_data (.dict kvs) =
      .ok (kvs.filterMap (fun kv => (entryOutcome kvs kv.1).getLeft?),
           kvs.filterMap (fun kv => (entryOutcome kvs kv.1).getRight?)) := by
  have hmap : kvs.map (fun kv => PyVal.str kv.1) = (kvs.map Prod.fst).map PyVal.str := by
    simp [List.map_map]
  have hks : ∀ k ∈ kvs.map Prod.fst, ∃ r rest, dictGet kvs k = some (.list (r :: rest)) := by
    intro k hk
    obtain ⟨kv, hm, rfl⟩ := List.mem_map.mp hk
    obtain ⟨r, rest, hv⟩ := h kv hm
    exact ⟨r, rest, by rw [dictGet_eq_of_nodup hnd hm, hv]⟩
  calc process_data (.dict kvs)
      = processLoop (.dict kvs) ((kvs.map Prod.fst).map PyVal.str) Option.none := by
        simp [process_data, pyIter, hmap]
    _ = _ := by
        rw [processLoop_entries (kvs.map Prod.fst) hks Option.none]
        simp only [List.filterMap_map]
        exact rfl

theorem asEntry?_eq_some {v : PyVal} {e : List (String × PyVal)}
    (h : asEntry? v = some e) : ∃ rest, v = .list (.dict e :: rest) := by
  unfold asEntry? at h
  split at h
  · next e2 rest => exact ⟨rest, by simp_all⟩
  · exact absurd h (by simp)

theorem asInt?_eq_some {v : PyVal} {n : ℤ} (h : asInt? v = some n) : v = .int n := by
  unfold asInt? at h
  split at h
  · simp_all
  · exact absurd h (by simp)

theorem pyFloat_of_coerceNum {c c2 : PyVal} (h : coerceNum? c = some c2) :
    pyFloat c = .ok c2 := by
  cases c <;> simp [coerceNum?] at h
  case str s =>
    obtain ⟨q, hq, rfl⟩ := h
    simp [pyFloat, hq]
  case int n => simp [pyFloat, h]
  case float q => simp [pyFloat, h]

theorem coerceNum_of_pyFloat_err {c : PyVal} {e : PyErr} (h : pyFloat c = .error e) :
    coerceNum? c = Option.none := by
  cases c <;> simp [pyFloat] at h
  case str s =>
    rcases hq : parseFloat s with _ | q
    · simp [coerceNum?, hq]
    · rw [hq] at h; simp at h

theorem pyFloat_of_notStrNum {c : PyVal} (h : notStrNum c = true) :
    pyFloat c = .ok c := by
  cases c <;> simp [notStrNum] at h <;> simp [pyFloat]

theorem pyAdd_error_typeError {a b : PyVal} {e : PyErr} (h : pyAdd a b = .error e) :
    e = .typeError := by
  cases a <;> cases b <;> simp [pyAdd] at h <;> simp [h]

/-- Everything `goodRec?` packs together, plus the matching behaviour of
the loop body. -/
theorem goodRec_spec {k : String} {v : PyVal} {r : NormRec}
    (h : goodRec? k v = some r) :
    ∃ e rest m c c2 a b,
      v = .list (.dict e :: rest) ∧
      dictGet e "model" = some m ∧
      dictGet e "total_cost" = some c ∧
      coerceNum? c = some c2 ∧
      dictGet e "input_tokens" = some (.int a) ∧
      dictGet e "output_tokens" = some (.int b) ∧
      r = ⟨m, c2, .str k, .int (a + b)⟩ ∧
      stepEntry (.str k) (.dict e) = .inl r ∧
      badErr? k v = Option.none ∧
      addErr? k v = Option.none := by
  unfold goodRec? at h
  simp only [Option.bind_eq_some] at h
  obtain ⟨e, he, m, hm, c, hc, c2, hc2, itv, hit, a, ha, otv, hot, b, hb, hr⟩ := h
  obtain ⟨rest, rfl⟩ := asEntry?_eq_some he
  obtain rfl := asInt?_eq_some ha
  obtain rfl := asInt?_eq_some hb
  injection hr with hr2
  subst hr2
  refine ⟨e, rest, m, c, c2, a, b, rfl, hm, hc, hc2, hit, hot, rfl, ?_, ?_, ?_⟩
  · simp [stepEntry, pySubscript, hm, hc, hit, hot, pyFloat_of_coerceNum hc2, pyAdd]
  · simp [badErr?, asEntry?, hm, hc, hit, hot, pyFloat_of_coerceNum hc2]
  · simp [addErr?, asEntry?, hm, hc, hit, hot, pyFloat_of_coerceNum hc2, pyAdd]

theorem pyFloat_error_valueError {c : PyVal} {e : PyErr} (h : pyFloat c = .error e) :
    e = .valueError := by
  cases c <;> simp [pyFloat] at h
  case str s =>
    rcases hq : parseFloat s with _ | q <;> rw [hq] at h <;> simp at h
    exact h.symm

theorem except_toOption_eq_some {ε α : Type} {x : Except ε α} {a : α}
    (h : x.toOption = some a) : x = .ok a := by
  rcases x with e | w <;> simp [Except.toOption] at h
  rw [h]

/-- Everything `badErr?` packs together: on such a user the loop body
reports exactly this error, and no record can be produced. -/
theorem badErr_spec {k : String} {v : PyVal} {err : RecordError}
    (h : badErr? k v = some err) :
    ∃ e rest, v = .list (.dict e :: rest) ∧
      stepEntry (.str k) (.dict e) = .inr err ∧
      goodRec? k v = Option.none := by
  unfold badErr? at h
  split at h
  case h_2 => exact absurd h (by simp)
  case h_1 e he =>
    obtain ⟨rest, rfl⟩ := asEntry?_eq_some he
    refine ⟨e, rest, rfl, ?_⟩
    split at h
    · next hm =>
      injection h with h2; subst h2
      exact ⟨by simp [stepEntry, pySubscript, boundHandler, hm],
             by simp [goodRec?, asEntry?, hm]⟩
    · next m hm =>
      split at h
      · next hc =>
        injection h with h2; subst h2
        exact ⟨by simp [stepEntry, pySubscript, boundHandler, hm, hc],
               by simp [goodRec?, asEntry?, hm, hc]⟩
      · next c hc =>
        split at h
        · next e2 hf =>
          injection h with h2; subst h2
          obtain rfl := pyFloat_error_valueError hf
          exact ⟨by simp [stepEntry, pySubscript, boundHandler, hm, hc, hf],
                 by simp [goodRec?, asEntry?, hm, hc, coerceNum_of_pyFloat_err hf]⟩
        · next w hf =>
          split at h
          · next hit =>
            injection h with h2; subst h2
            refine ⟨by simp [stepEntry, pySubscript, boundHandler, hm, hc, hf, hit], ?_⟩
            rcases hcc : coerceNum? c with _ | c2 <;>
              simp [goodRec?, asEntry?, hm, hc, hcc, hit]
          · next itv hit =>
            split at h
            · next hot =>
              injection h with h2; subst h2
              refine ⟨by simp [stepEntry, pySubscript, boundHandler, hm, hc, hf, hit, hot], ?_⟩
              rcases hcc : coerceNum? c with _ | c2 <;>
                rcases hia : asInt? itv with _ | a <;>
                simp [goodRec?, asEntry?, hm, hc, hcc, hit, hia, hot]
            · next otv hot => exact absurd h (by simp)

/-- Everything `addErr?` packs together: a failing token addition is an
unexpected error (generic handler), never the ValueError branch, and no
record can be produced. -/
theorem addErr_spec {k : String} {v : PyVal} {err : RecordError}
    (h : addErr? k v = some err) :
    ∃ e rest, v = .list (.dict e :: rest) ∧
      stepEntry (.str k) (.dict e) = .inr err ∧
      goodRec? k v = Option.none ∧
      err.isUnexpected = true ∧
      err.isInvalidNumeric = false := by
  unfold addErr? at h
  simp only [Option.bind_eq_some] at h
  obtain ⟨e, he, m, hm, c, hc, w, hw, itv, hit, otv, hot, hmatch⟩ := h
  obtain ⟨rest, rfl⟩ := asEntry?_eq_some he
  have hf : pyFloat c = .ok w := except_toOption_eq_some hw
  split at hmatch
  · next e2 hadd =>
    injection hmatch with h2; subst h2
    obtain rfl := pyAdd_error_typeError hadd
    refine ⟨e, rest, rfl,
      by simp [stepEntry, pySubscript, boundHandler, hm, hc, hf, hit, hot, hadd],
      ?_, rfl, rfl⟩
    rcases hgr : goodRec? k (.list (.dict e :: rest)) with _ | r
    · rfl
    · obtain ⟨e2, rest2, m2, c2, c22, a, b, heq, hm2, hc2, hcc2, hit2, hot2, -, -, -, -⟩ :=
        goodRec_spec hgr
      injection heq with hxs
      injection hxs with hhd htl
      injection hhd with hee
      subst hee; subst htl
      rw [hit] at hit2
      injection hit2 with hitv
      rw [hot] at hot2
      injection hot2 with hotv
      rw [hitv, hotv] at hadd
      simp [pyAdd] at hadd
  · next tt hadd => exact absurd hmatch (by simp)

/-- Everything `oddRec?` packs together: a present cost that is neither
string nor number passes through unchanged and the loop body appends the
record. -/
theorem oddRec_spec {k : String} {v : PyVal} {r : NormRec}
    (h : oddRec? k v = some r) :
    ∃ e rest m c itv otv tt,
      v = .list (.dict e :: rest) ∧
      dictGet e "model" = some m ∧
      dictGet e "total_cost" = some c ∧
      notStrNum c = true ∧
      dictGet e "input_tokens" = some itv ∧
      dictGet e "output_tokens" = some otv ∧
      pyAdd itv otv = .ok tt ∧
      r = ⟨m, c, .str k, tt⟩ ∧
      stepEntry (.str k) (.dict e) = .inl r := by
  unfold oddRec? at h
  simp only [Option.bind_eq_some] at h
  obtain ⟨e, he, m, hm, c, hc, u, hif, itv, hit, otv, hot, tt, htt, hr⟩ := h
  obtain ⟨rest, rfl⟩ := asEntry?_eq_some he
  by_cases hns : notStrNum c = true
  · rw [if_pos hns] at hif
    have hadd : pyAdd itv otv = .ok tt := except_toOption_eq_some htt
    injection hr with hr2; subst hr2
    exact ⟨e, rest, m, c, itv, otv, tt, rfl, hm, hc, hns, hit, hot, hadd, rfl,
      by simp [stepEntry, pySubscript, hm, hc, pyFloat_of_notStrNum hns, hit, hot, hadd]⟩
  · rw [if_neg hns] at hif
    exact absurd hif (by simp)

theorem filterMap_eq_nil_of_none {α β : Type} {f : α → Option β} {l : List α}
    (h : ∀ a ∈ l, f a = Option.none) : l.filterMap f = [] := by
  induction l with
  | nil => rfl
  | cons a l ih =>
    rw [List.filterMap_cons, h a (List.mem_cons_self a l)]
    exact ih fun a ha => h a (List.mem_cons_of_mem _ ha)

theorem length_filterMap_of_isSome {α β : Type} {f : α → Option β} {l : List α}
    (h : ∀ a ∈ l, (f a).isSome) : (l.filterMap f).length = l.length := by
  induction l with
  | nil => rfl
  | cons a l ih =>
    obtain ⟨b, hb⟩ := Option.isSome_iff_exists.mp (h a (List.mem_cons_self a l))
    rw [List.filterMap_cons, hb]
    simp [ih fun a ha => h a (List.mem_cons_of_mem _ ha)]

theorem length_filterMap_eq_length_filter {α β : Type} (f : α → Option β) (l : List α) :
    (l.filterMap f).length = (l.filter fun a => (f a).isSome).length := by
  induction l with
  | nil => rfl
  | cons a l ih =>
    rw [List.filterMap_cons, List.filter_cons]
    rcases hb : f a with _ | b <;> simp [hb, ih]

theorem filterMap_ne_nil_of_isSome {α β : Type} {f : α → Option β} {l : List α}
    (h : ∃ a ∈ l, (f a).isSome) : l.filterMap f ≠ [] := by
  obtain ⟨a, ha, hs⟩ := h
  obtain ⟨b, hb⟩ := Option.isSome_iff_exists.mp hs
  exact List.ne_nil_of_mem (List.mem_filterMap.mpr ⟨a, ha, hb⟩)

/-- C2: on a document where every user's first entry is a dict carrying
all four required fields, integer token counts and a cost that is
numeric or a numeric string, normalize returns no errors and exactly one
record per user, whose user is the document key, whose total_tokens is
the exact integer sum, and whose total_cost is the coerced cost. -/
theorem C2_normalize_wellformed_document (kvs : List (String × PyVal))
    (hnd : (kvs.map Prod.fst).Nodup)
    (hg : ∀ kv ∈ kvs, (goodRec? kv.1 kv.2).isSome) :
    process_data (.dict kvs) =
      .ok (kvs.filterMap (fun kv => goodRec? kv.1 kv.2), []) ∧
    (kvs.filterMap (fun kv => goodRec? kv.1 kv.2)).length = kvs.length ∧
    ∀ kv ∈ kvs, ∃ e rest m c c2 a b,
      kv.2 = .list (.dict e :: rest) ∧
      dictGet e "model" = some m ∧
      dictGet e "total_cost" = some c ∧
      coerceNum? c = some c2 ∧
      dictGet e "input_tokens" = some (.int a) ∧
      dictGet e "output_tokens" = some (.int b) ∧
      goodRec? kv.1 kv.2 = some ⟨m, c2, .str kv.1, .int (a + b)⟩ := by
  have hinv : ∀ kv ∈ kvs, ∃ e rest m c c2 a b,
      kv.2 = PyVal.list (.dict e :: rest) ∧
      dictGet e "model" = some m ∧
      dictGet e "total_cost" = some c ∧
      coerceNum? c = some c2 ∧
      dictGet e "input_tokens" = some (.int a) ∧
      dictGet e "output_tokens" = some (.int b) ∧
      goodRec? kv.1 kv.2 = some ⟨m, c2, .str kv.1, .int (a + b)⟩ := by
    intro kv hm
    obtain ⟨r, hr⟩ := Option.isSome_iff_exists.mp (hg kv hm)
    obtain ⟨e, rest, m, c, c2, a, b, hv, hm2, hc, hcc, hit, hot, hreq, hstep, -, -⟩ :=
      goodRec_spec hr
    exact ⟨e, rest, m, c, c2, a, b, hv, hm2, hc, hcc, hit, hot, by rw [hr, hreq]⟩
  have hshape : ∀ kv ∈ kvs, ∃ r rest, kv.2 = PyVal.list (r :: rest) := by
    intro kv hm
    obtain ⟨e, rest, m, c, c2, a, b, hv, -⟩ := hinv kv hm
    exact ⟨.dict e, rest, hv⟩
  have hcongr : ∀ kv ∈ kvs,
      (entryOutcome kvs kv.1).getLeft? = goodRec? kv.1 kv.2 ∧
      (entryOutcome kvs kv.1).getRight? = Option.none := by
    intro kv hm
    obtain ⟨r, hr⟩ := Option.isSome_iff_exists.mp (hg kv hm)
    obtain ⟨e, rest, m, c, c2, a, b, hv, hm2, hc, hcc, hit, hot, hreq, hstep, -, -⟩ :=
      goodRec_spec hr
    have : entryOutcome kvs kv.1 = stepEntry (.str kv.1) (.dict e) := by
      simp [entryOutcome, dictGet_eq_of_nodup hnd hm, hv]
    rw [this, hstep, hr]
    exact ⟨rfl, rfl⟩
  refine ⟨?_, length_filterMap_of_isSome hg, hinv⟩
  rw [process_data_entries hnd hshape,
    List.filterMap_congr (fun kv hm => (hcongr kv hm).1),
    filterMap_eq_nil_of_none (fun kv hm => (hcongr kv hm).2)]

/-- C2 witness: the theorem instantiated on a concrete one-user
well-formed document. -/
theorem C2_normalize_wellformed_document_witness :
    process_data (.dict docWellFormed) =
      .ok (docWellFormed.filterMap (fun kv => goodRec? kv.1 kv.2), []) ∧
    (docWellFormed.filterMap (fun kv => goodRec? kv.1 kv.2)).length = docWellFormed.length ∧
    ∀ kv ∈ docWellFormed, ∃ e rest m c c2 a b,
      kv.2 = .list (.dict e :: rest) ∧
      dictGet e "model" = some m ∧
      dictGet e "total_cost" = some c ∧
      coerceNum? c = some c2 ∧
      dictGet e "input_tokens" = some (.int a) ∧
      dictGet e "output_tokens" = some (.int b) ∧
      goodRec? kv.1 kv.2 = some ⟨m, c2, .str kv.1, .int (a + b)⟩ :=
  C2_normalize_wellformed_document docWellFormed (by decide) (by decide)

/-- C3: on a document where every user's first entry is a dict and each
user is either well-formed or bad (missing one of the four required
fields, or a string cost that does not parse), normalize drops exactly
the bad users — no partial record — reports exactly one error per
dropped user (a non-empty error list), and still returns the record of
every well-formed user. -/
theorem C3_normalize_drops_exactly_bad_users (kvs : List (String × PyVal))
    (hnd : (kvs.map Prod.fst).Nodup)
    (hgb : ∀ kv ∈ kvs, (goodRec? kv.1 kv.2).isSome ∨ (badErr? kv.1 kv.2).isSome)
    (hbad : ∃ kv ∈ kvs, (badErr? kv.1 kv.2).isSome) :
    process_data (.dict kvs) =
      .ok (kvs.filterMap (fun kv => goodRec? kv.1 kv.2),
           kvs.filterMap (fun kv => badErr? kv.1 kv.2)) ∧
    kvs.filterMap (fun kv => badErr? kv.1 kv.2) ≠ [] ∧
    (kvs.filterMap (fun kv => badErr? kv.1 kv.2)).length =
      (kvs.filter fun kv => (badErr? kv.1 kv.2).isSome).length ∧
    (kvs.filterMap (fun kv => goodRec? kv.1 kv.2)).length =
      (kvs.filter fun kv => (goodRec? kv.1 kv.2).isSome).length := by
  have hcongr : ∀ kv ∈ kvs,
      (kv.2 = kv.2 → ∃ r rest, kv.2 = PyVal.list (r :: rest)) ∧
      (entryOutcome kvs kv.1).getLeft? = goodRec? kv.1 kv.2 ∧
      (entryOutcome kvs kv.1).getRight? = badErr? kv.1 kv.2 := by
    intro kv hm
    rcases hgb kv hm with hs | hs
    · obtain ⟨r, hr⟩ := Option.isSome_iff_exists.mp hs
      obtain ⟨e, rest, m, c, c2, a, b, hv, _, _, _, _, _, _, hstep, hbn, -⟩ :=
        goodRec_spec hr
      have hout : entryOutcome kvs kv.1 = stepEntry (.str kv.1) (.dict e) := by
        simp [entryOutcome, dictGet_eq_of_nodup hnd hm, hv]
      rw [hout, hstep, hr, hbn]
      exact ⟨fun _ => ⟨.dict e, rest, hv⟩, rfl, rfl⟩
    · obtain ⟨err, her⟩ := Option.isSome_iff_exists.mp hs
      obtain ⟨e, rest, hv, hstep, hgn⟩ := badErr_spec her
      have hout : entryOutcome kvs kv.1 = stepEntry (.str kv.1) (.dict e) := by
        simp [entryOutcome, dictGet_eq_of_nodup hnd hm, hv]
      rw [hout, hstep, her, hgn]
      exact ⟨fun _ => ⟨.dict e, rest, hv⟩, rfl, rfl⟩
  refine ⟨?_, filterMap_ne_nil_of_isSome hbad,
    length_filterMap_eq_length_filter _ kvs,
    length_filterMap_eq_length_filter _ kvs⟩
  rw [process_data_entries hnd (fun kv hm => (hcongr kv hm).1 rfl),
    List.filterMap_congr (fun kv hm => (hcongr kv hm).2.1),
    List.filterMap_congr (fun kv hm => (hcongr kv hm).2.2)]

/-- C3 witness: the theorem instantiated on a concrete document with one
well-formed and one bad user. -/
theorem C3_normalize_drops_exactly_bad_users_witness :
    process_data (.dict docOneBad) =
      .ok (docOneBad.filterMap (fun kv => goodRec? kv.1 kv.2),
           docOneBad.filterMap (fun kv => badErr? kv.1 kv.2)) ∧
    docOneBad.filterMap (fun kv => badErr? kv.1 kv.2) ≠ [] ∧
    (docOneBad.filterMap (fun kv => badErr? kv.1 kv.2)).length =
      (docOneBad.filter fun kv => (badErr? kv.1 kv.2).isSome).length ∧
    (docOneBad.filterMap (fun kv => goodRec? kv.1 kv.2)).length =
      (docOneBad.filter fun kv => (goodRec? kv.1 kv.2).isSome).length :=
  C3_normalize_drops_exactly_bad_users docOneBad (by decide) (by decide) (by decide)

/-- C5 amended: a user entry whose token addition raises (the values are
not addable, e.g. a string plus an int) is dropped and reported through
the generic handler as an Unexpected error — not as InvalidNumeric — and
processing continues with the remaining users. -/
theorem C5_invalid_tokens_unexpected_error (kvs : List (String × PyVal))
    (hnd : (kvs.map Prod.fst).Nodup)
    (hga : ∀ kv ∈ kvs, (goodRec? kv.1 kv.2).isSome ∨ (addErr? kv.1 kv.2).isSome)
    (hbad : ∃ kv ∈ kvs, (addErr? kv.1 kv.2).isSome) :
    process_data (.dict kvs) =
      .ok (kvs.filterMap (fun kv => goodRec? kv.1 kv.2),
           kvs.filterMap (fun kv => addErr? kv.1 kv.2)) ∧
    kvs.filterMap (fun kv => addErr? kv.1 kv.2) ≠ [] ∧
    ∀ er ∈ kvs.filterMap (fun kv => addErr? kv.1 kv.2),
      er.isUnexpected = true ∧ er.isInvalidNumeric = false := by
  have hcongr : ∀ kv ∈ kvs,
      (kv.2 = kv.2 → ∃ r rest, kv.2 = PyVal.list (r :: rest)) ∧
      (entryOutcome kvs kv.1).getLeft? = goodRec? kv.1 kv.2 ∧
      (entryOutcome kvs kv.1).getRight? = addErr? kv.1 kv.2 := by
    intro kv hm
    rcases hga kv hm with hs | hs
    · obtain ⟨r, hr⟩ := Option.isSome_iff_exists.mp hs
      obtain ⟨e, rest, m, c, c2, a, b, hv, _, _, _, _, _, _, hstep, -, han⟩ :=
        goodRec_spec hr
      have hout : entryOutcome kvs kv.1 = stepEntry (.str kv.1) (.dict e) := by
        simp [entryOutcome, dictGet_eq_of_nodup hnd hm, hv]
      rw [hout, hstep, hr, han]
      exact ⟨fun _ => ⟨.dict e, rest, hv⟩, rfl, rfl⟩
    · obtain ⟨err, her⟩ := Option.isSome_iff_exists.mp hs
      obtain ⟨e, rest, hv, hstep, hgn, -, -⟩ := addErr_spec her
      have hout : entryOutcome kvs kv.1 = stepEntry (.str kv.1) (.dict e) := by
        simp [entryOutcome, dictGet_eq_of_nodup hnd hm, hv]
      rw [hout, hstep, her, hgn]
      exact ⟨fun _ => ⟨.dict e, rest, hv⟩, rfl, rfl⟩
  refine ⟨?_, filterMap_ne_nil_of_isSome hbad, ?_⟩
  · rw [process_data_entries hnd (fun kv hm => (hcongr kv hm).1 rfl),
      List.filterMap_congr (fun kv hm => (hcongr kv hm).2.1),
      List.filterMap_congr (fun kv hm => (hcongr kv hm).2.2)]
  · intro er hmem
    obtain ⟨kv, hm, her⟩ := List.mem_filterMap.mp hmem
    obtain ⟨-, -, -, -, -, hu, hn⟩ := addErr_spec her
    exact ⟨hu, hn⟩

/-- C5 amended witness: the theorem instantiated on the document with
one well-formed user and one user with a string plus int token pair. -/
theorem C5_invalid_tokens_unexpected_error_witness :
    process_data (.dict docOneMixed) =
      .ok (docOneMixed.filterMap (fun kv => goodRec? kv.1 kv.2),
           docOneMixed.filterMap (fun kv => addErr? kv.1 kv.2)) ∧
    docOneMixed.filterMap (fun kv => addErr? kv.1 kv.2) ≠ [] ∧
    ∀ er ∈ docOneMixed.filterMap (fun kv => addErr? kv.1 kv.2),
      er.isUnexpected = true ∧ er.isInvalidNumeric = false :=
  C5_invalid_tokens_unexpected_error docOneMixed (by decide) (by decide) (by decide)

theorem coerceNum_none_of_notStrNum {c : PyVal} (h : notStrNum c = true) :
    coerceNum? c = Option.none := by
  cases c <;> simp [notStrNum] at h <;> simp [coerceNum?]

theorem goodRec_none_of_oddRec {k : String} {v : PyVal} {r : NormRec}
    (h : oddRec? k v = some r) : goodRec? k v = Option.none := by
  obtain ⟨e, rest, m, c, itv, otv, tt, hv, hm, hc, hns, hit, hot, hadd, hreq, hstep⟩ :=
    oddRec_spec h
  subst hv
  simp [goodRec?, asEntry?, hm, hc, coerceNum_none_of_notStrNum hns]

/-- C10: a user entry whose `total_cost` is present but neither a string
nor a number (and whose other three fields are present with addable
token values) produces no error: the record is appended with the
non-numeric cost value carried through unchanged, because the coercion
only runs on strings.  Other users — well-formed ones — are unaffected. -/
theorem C10_nonstring_cost_passthrough (kvs : List (String × PyVal))
    (hnd : (kvs.map Prod.fst).Nodup)
    (hgo : ∀ kv ∈ kvs, (goodRec? kv.1 kv.2).isSome ∨ (oddRec? kv.1 kv.2).isSome) :
    process_data (.dict kvs) =
      .ok (kvs.filterMap
            (fun kv => (goodRec? kv.1 kv.2).orElse fun _ => oddRec? kv.1 kv.2), []) ∧
    (kvs.filterMap
      (fun kv => (goodRec? kv.1 kv.2).orElse fun _ => oddRec? kv.1 kv.2)).length =
      kvs.length ∧
    ∀ kv ∈ kvs, ∀ r : NormRec, oddRec? kv.1 kv.2 = some r →
      ∃ e rest, kv.2 = .list (.dict e :: rest) ∧
        dictGet e "total_cost" = some r.total_cost ∧
        notStrNum r.total_cost = true := by
  have hcongr : ∀ kv ∈ kvs,
      (kv.2 = kv.2 → ∃ rr rest, kv.2 = PyVal.list (rr :: rest)) ∧
      (entryOutcome kvs kv.1).getLeft? =
        ((goodRec? kv.1 kv.2).orElse fun _ => oddRec? kv.1 kv.2) ∧
      (entryOutcome kvs kv.1).getRight? = Option.none := by
    intro kv hm
    rcases hgo kv hm with hs | hs
    · obtain ⟨r, hr⟩ := Option.isSome_iff_exists.mp hs
      obtain ⟨e, rest, m, c, c2, a, b, hv, _, _, _, _, _, _, hstep, -, -⟩ :=
        goodRec_spec hr
      have hout : entryOutcome kvs kv.1 = stepEntry (.str kv.1) (.dict e) := by
        simp [entryOutcome, dictGet_eq_of_nodup hnd hm, hv]
      rw [hout, hstep, hr]
      exact ⟨fun _ => ⟨.dict e, rest, hv⟩, by simp [Option.orElse], rfl⟩
    · obtain ⟨r, hr⟩ := Option.isSome_iff_exists.mp hs
      obtain ⟨e, rest, m, c, itv, otv, tt, hv, _, _, _, _, _, _, _, hstep⟩ :=
        oddRec_spec hr
      have hout : entryOutcome kvs kv.1 = stepEntry (.str kv.1) (.dict e) := by
        simp [entryOutcome, dictGet_eq_of_nodup hnd hm, hv]
      rw [hout, hstep, goodRec_none_of_oddRec hr, hr]
      exact ⟨fun _ => ⟨.dict e, rest, hv⟩, by simp [Option.orElse], rfl⟩
  have hsome : ∀ kv ∈ kvs,
      ((goodRec? kv.1 kv.2).orElse fun _ => oddRec? kv.1 kv.2).isSome := by
    intro kv hm
    rcases hgo kv hm with hs | hs
    · obtain ⟨r, hr⟩ := Option.isSome_iff_exists.mp hs
      simp [hr, Option.orElse]
    · obtain ⟨r, hr⟩ := Option.isSome_iff_exists.mp hs
      rcases hg : goodRec? kv.1 kv.2 with _ | r2 <;> simp [hg, hr, Option.orElse]
  refine ⟨?_, length_filterMap_of_isSome hsome, ?_⟩
  · rw [process_data_entries hnd (fun kv hm => (hcongr kv hm).1 rfl),
      List.filterMap_congr (fun kv hm => (hcongr kv hm).2.1),
      filterMap_eq_nil_of_none (fun kv hm => (hcongr kv hm).2.2)]
  · intro kv hm r hr
    obtain ⟨e, rest, m, c, itv, otv, tt, hv, hm2, hc, hns, hit, hot, hadd, hreq, -⟩ :=
      oddRec_spec hr
    subst hreq
    exact ⟨e, rest, hv, hc, hns⟩

/-- C10 witness: the theorem instantiated on the one-user document whose
cost is JSON null. -/
theorem C10_nonstring_cost_passthrough_witness :
    process_data (.dict docNullCost) =
      .ok (docNullCost.filterMap
            (fun kv => (goodRec? kv.1 kv.2).orElse fun _ => oddRec? kv.1 kv.2), []) ∧
    (docNullCost.filterMap
      (fun kv => (goodRec? kv.1 kv.2).orElse fun _ => oddRec? kv.1 kv.2)).length =
      docNullCost.length ∧
    ∀ kv ∈ docNullCost, ∀ r : NormRec, oddRec? kv.1 kv.2 = some r →
      ∃ e rest, kv.2 = .list (.dict e :: rest) ∧
        dictGet e "total_cost" = some r.total_cost ∧
        notStrNum r.total_cost = true :=
  C10_nonstring_cost_passthrough docNullCost (by decide) (by decide)

theorem pairwise_lex_orderedInsert {α β γ : Type} [LinearOrder β] [LinearOrder γ]
    (val : α → β) (K : α → γ) (x : α) (l : List α)
    (hl : l.Pairwise (fun a b => val b < val a ∨ (val a = val b ∧ K a < K b)))
    (hx : ∀ y ∈ l, K x < K y) :
    (List.orderedInsert (descBy val) x l).Pairwise
      (fun a b => val b < val a ∨ (val a = val b ∧ K a < K b)) := by
  induction l with
  | nil => simp
  | cons y ys ih =>
    rw [List.orderedInsert]
    by_cases h1 : descBy val x y
    · rw [if_pos h1]
      refine List.Pairwise.cons ?_ hl
      intro z hz
      have hzy : val z ≤ val y := by
        rcases List.mem_cons.mp hz with rfl | hz2
        · exact le_refl _
        · rcases (List.pairwise_cons.mp hl).1 z hz2 with h | h
          · exact le_of_lt h
          · exact le_of_eq h.1.symm
      rcases lt_or_eq_of_le (le_trans hzy h1) with h | h
      · exact Or.inl h
      · exact Or.inr ⟨h.symm, hx z hz⟩
  
    · rw [if_neg h1]
      refine List.Pairwise.cons ?_ (ih (List.pairwise_cons.mp hl).2
        (fun y2 hy2 => hx y2 (List.mem_cons_of_mem _ hy2)))
      intro w hw
      rcases (List.mem_orderedInsert (descBy val)).mp hw with rfl | hw2
      · exact Or.inl (lt_of_not_le h1)
      · exact (List.pairwise_cons.mp hl).1 w hw2

theorem pairwise_lex_insertionSort {α β γ : Type} [LinearOrder β] [LinearOrder γ]
    (val : α → β) (K : α → γ) (l : List α)
    (hl : l.Pairwise (fun a b => K a < K b)) :
    (List.insertionSort (descBy val) l).Pairwise
      (fun a b => val b < val a ∨ (val a = val b ∧ K a < K b)) := by
  induction l with
  | nil => simp
  | cons x xs ih =>
    rw [List.insertionSort]
    refine pairwise_lex_orderedInsert val K x _ (ih (List.pairwise_cons.mp hl).2) ?_
    intro y hy
    exact (List.pairwise_cons.mp hl).1 y ((List.mem_insertionSort _).mp hy)

theorem groupKeys_nodup (l : List String) : (groupKeys l).Nodup :=
  (List.perm_insertionSort _ l.dedup).symm.nodup (List.nodup_dedup l)

theorem groupKeys_pairwise_lt (l : List String) :
    (groupKeys l).Pairwise (fun a b => a < b) :=
  (List.sorted_insertionSort _ l.dedup).lt_of_le (groupKeys_nodup l)

theorem mem_groupKeys {l : List String} {u : String} : u ∈ groupKeys l ↔ u ∈ l :=
  (List.mem_insertionSort _).trans (List.mem_dedup)

theorem modelGroups_pairwise {β : Type} [AddCommMonoid β] [LinearOrder β]
    (val : Record → β) (rs : List Record) :
    (modelGroups val rs).Pairwise
      (fun a b => b.2 < a.2 ∨ (a.2 = b.2 ∧ a.1 < b.1)) := by
  refine pairwise_lex_insertionSort Prod.snd Prod.fst _ ?_
  exact List.pairwise_map.mpr (groupKeys_pairwise_lt (rs.map Record.model))

theorem modelGroups_keys_perm {β : Type} [AddCommMonoid β] [LinearOrder β]
    (val : Record → β) (rs : List Record) :
    ((modelGroups val rs).map Prod.fst).Perm (rs.map Record.model).dedup := by
  have h1 : ((modelGroups val rs).map Prod.fst).Perm
      (((groupKeys (rs.map Record.model)).map fun m =>
        (m, ((rs.filter (fun r => r.model = m)).map val).sum)).map Prod.fst) :=
    (List.perm_insertionSort _ _).map Prod.fst
  have h2 : ((groupKeys (rs.map Record.model)).map fun m =>
      (m, ((rs.filter (fun r => r.model = m)).map val).sum)).map Prod.fst =
      groupKeys (rs.map Record.model) := by
    rw [List.map_map]
    exact List.map_id _
  exact (h2 ▸ h1).trans (List.perm_insertionSort _ _)

theorem topModels_spec {β : Type} [AddCommMonoid β] [LinearOrder β]
    (val : Record → β) (rs : List Record) :
    topModels val rs = (modelGroups val rs).take 10 ∧
    (topModels val rs).length ≤ 10 ∧
    (topModels val rs).Pairwise
      (fun a b => b.2 < a.2 ∨ (a.2 = b.2 ∧ a.1 < b.1)) ∧
    (∀ a ∈ topModels val rs, ∀ b ∈ (modelGroups val rs).drop 10, b.2 ≤ a.2) ∧
    ((modelGroups val rs).map Prod.fst).Perm (rs.map Record.model).dedup ∧
    ((rs.map Record.model).dedup.length ≤ 10 →
      topModels val rs = modelGroups val rs) := by
  have hpw := modelGroups_pairwise val rs
  have hperm := modelGroups_keys_perm val rs
  refine ⟨rfl, ?_, ?_, ?_, hperm, ?_⟩
  · rw [topModels, List.length_take]
    exact min_le_left _ _
  · exact List.Pairwise.sublist (List.take_sublist _ _) hpw
  · have h2 : (modelGroups val rs).Pairwise (fun a b => b.2 ≤ a.2) := by
      refine hpw.imp ?_
      rintro a b (h | h)
      · exact le_of_lt h
      · exact le_of_eq h.1.symm
    rw [← List.take_append_drop 10 (modelGroups val rs)] at h2
    exact (List.pairwise_append.mp h2).2.2
  · intro hlen
    have hl2 : (modelGroups val rs).length ≤ 10 := by
      have h3 := hperm.length_eq
      rw [List.length_map] at h3
      omega
    exact List.take_of_length_le hl2

/-- C6 amended: each of the two model aggregates keeps at most 10
groups, in descending order of the summed value; every kept group's sum
is at least every dropped group's sum; all groups are kept when at most
10 distinct models exist; and ties in the summed value appear in
ascending model-name order — the group order produced by
`groupby(sort=True)` — not in first-encountered order. -/
theorem C6_top_models_sorted_truncated (rs : List Record) :
    (topModelsByTokens rs = (modelGroups Record.total_tokens rs).take 10 ∧
     (topModelsByTokens rs).length ≤ 10 ∧
     (topModelsByTokens rs).Pairwise
       (fun a b => b.2 < a.2 ∨ (a.2 = b.2 ∧ a.1 < b.1)) ∧
     (∀ a ∈ topModelsByTokens rs,
        ∀ b ∈ (modelGroups Record.total_tokens rs).drop 10, b.2 ≤ a.2) ∧
     ((modelGroups Record.total_tokens rs).map Prod.fst).Perm
       (rs.map Record.model).dedup ∧
     ((rs.map Record.model).dedup.length ≤ 10 →
        topModelsByTokens rs = modelGroups Record.total_tokens rs)) ∧
    (topModelsByCost rs = (modelGroups Record.total_cost rs).take 10 ∧
     (topModelsByCost rs).length ≤ 10 ∧
     (topModelsByCost rs).Pairwise
       (fun a b => b.2 < a.2 ∨ (a.2 = b.2 ∧ a.1 < b.1)) ∧
     (∀ a ∈ topModelsByCost rs,
        ∀ b ∈ (modelGroups Record.total_cost rs).drop 10, b.2 ≤ a.2) ∧
     ((modelGroups Record.total_cost rs).map Prod.fst).Perm
       (rs.map Record.model).dedup ∧
     ((rs.map Record.model).dedup.length ≤ 10 →
        topModelsByCost rs = modelGroups Record.total_cost rs)) :=
  ⟨topModels_spec Record.total_tokens rs, topModels_spec Record.total_cost rs⟩

/-- C6 amended witness: the theorem instantiated on the two-record tied
set, with the inner implication discharged (two distinct models). -/
theorem C6_top_models_sorted_truncated_witness :
    topModelsByTokens rsTieModels = modelGroups Record.total_tokens rsTieModels ∧
    (topModelsByTokens rsTieModels).length ≤ 10 ∧
    (topModelsByTokens rsTieModels).Pairwise
      (fun a b => b.2 < a.2 ∨ (a.2 = b.2 ∧ a.1 < b.1)) :=
  ⟨((C6_top_models_sorted_truncated rsTieModels).1.2.2.2.2.2) (by decide),
   (C6_top_models_sorted_truncated rsTieModels).1.2.1,
   (C6_top_models_sorted_truncated rsTieModels).1.2.2.1⟩

/-- C8: the user-totals table is the per-user grouped rows — one row per
distinct user (no truncation), sorted descending by summed cost —
followed by exactly one synthetic `Total` row whose cost and tokens are
the sums of those fields over all the other rows. -/
theorem C8_user_totals_shape (rs : List Record) :
    userTotals rs =
      userRows rs ++
        [⟨"Total", ((userRows rs).map UserRow.total_cost).sum,
                   ((userRows rs).map UserRow.total_tokens).sum⟩] ∧
    ((userRows rs).map UserRow.user).Nodup ∧
    (∀ u, u ∈ (userRows rs).map UserRow.user ↔ u ∈ rs.map Record.user) ∧
    (userRows rs).Pairwise (fun a b => b.total_cost ≤ a.total_cost) := by
  have h1 : ((userRows rs).map UserRow.user).Perm (groupKeys (rs.map Record.user)) := by
    have hp : (userRows rs).Perm ((groupKeys (rs.map Record.user)).map fun u =>
        ⟨u, ((rs.filter (fun r => r.user = u)).map Record.total_cost).sum,
            ((rs.filter (fun r => r.user = u)).map Record.total_tokens).sum⟩) :=
      List.perm_insertionSort _ _
    have h2 := hp.map UserRow.user
    rw [List.map_map] at h2
    exact h2.trans (by rw [show ((fun r => UserRow.user r) ∘ fun u =>
      (⟨u, ((rs.filter (fun r => r.user = u)).map Record.total_cost).sum,
           ((rs.filter (fun r => r.user = u)).map Record.total_tokens).sum⟩ : UserRow)) =
        id from rfl, List.map_id])
  refine ⟨rfl, ?_, ?_, ?_⟩
  · exact (List.Perm.nodup_iff h1).mpr (groupKeys_nodup _)
  · intro u
    rw [h1.mem_iff, mem_groupKeys]
  · have hs := List.sorted_insertionSort (descBy UserRow.total_cost)
      ((groupKeys (rs.map Record.user)).map fun u =>
        (⟨u, ((rs.filter (fun r => r.user = u)).map Record.total_cost).sum,
            ((rs.filter (fun r => r.user = u)).map Record.total_tokens).sum⟩ : UserRow))
    exact hs
